import Mathlib

/-!
Verification of the topic-clustering core of `youtube-semantic-search`
(`src/services/topic_clustering_service.py`), as a shallow embedding.

Modelling conventions:
* Python ints are `Nat`/`Int`; Python floats that only carry exact ratios of
  machine integers (noise ratios, percentages, mean probabilities) are `ℚ`.
  Float literals such as `0.75`, `0.08` multiplied into an int and truncated
  by `int(...)` are modelled as exact rational floors (`3 * n / 4` etc.).
* External capabilities (the HDBSCAN fit, its probability vector, the PCA
  projection, the LLM labeling call, the vector store) are oracle parameters.
* Python dicts keyed by insertion order are association lists; a dict update
  keeps the original key position; `dict.setdefault` appends a fresh key.
* Wall-clock fields (`generated_at`, `build_seconds`), the `warnings` list
  and `validity_score` (computed by an external library and never read by
  control flow) are not modelled.
-/

namespace TopicClustering

/-! ### Configuration constants (src/config.py) -/

def MIN_CLUSTER_SIZE_FLOOR : Nat := 5
def MIN_CLUSTER_SIZE_MAX : Nat := 150
def LABEL_MAX_KEYWORDS : Nat := 4
def PCA_MAX_COMPONENTS : Nat := 50

/-! ### Parameter derivation (`derive_params`, lines 186-206) -/

structure ClusterParams where
  min_cluster_size : Nat
  min_samples : Nat
deriving Repr, DecidableEq

/-- `TopicClusteringService.derive_params`.  The Python fractions
`int(0.08*n)`, `int(0.04*n)`, `int(0.02*n)`, `int(0.008*n)`, `int(0.006*n)`,
`int(0.3*mcs)` are modelled as exact rational floors. -/
def derive_params (floor_ cap n : Nat) : ClusterParams :=
  if n = 0 then { min_cluster_size := floor_, min_samples := floor_ }
  else
    let mcs0 :=
      if n ≤ 100 then max floor_ (8 * n / 100)
      else if n ≤ 500 then max floor_ (4 * n / 100)
      else if n ≤ 1500 then max floor_ (2 * n / 100)
      else if n ≤ 3000 then max floor_ (8 * n / 1000)
      else max floor_ (6 * n / 1000)
    let mcs := max floor_ (min cap mcs0)
    { min_cluster_size := mcs, min_samples := max 2 (3 * mcs / 10) }

/-! ### Metrics and the evaluation step (`evaluate`, lines 225-248) -/

structure ClusterMetrics where
  cluster_count : Nat
  noise_ratio : ℚ
deriving Repr, DecidableEq

/-- `TopicClusteringService.evaluate` restricted to the two fields the
search loop reads (`validity_score` and `build_seconds` are external /
wall-clock and never influence control flow). -/
def evaluate (labels : List Int) : ClusterMetrics :=
  if labels.length = 0 then { cluster_count := 0, noise_ratio := 0 }
  else
    { cluster_count := ((labels.filter (fun l => l ≠ -1)).dedup).length
      noise_ratio := (labels.count (-1) : ℚ) / (labels.length : ℚ) }

/-! ### The clustering algorithm as an oracle (`run_hdbscan`, lines 209-223) -/

inductive SelMethod where
  | leaf
  | eom
deriving Repr, DecidableEq

/-- `TopicClusteringService.run_hdbscan`.  The HDBSCAN fit itself is the
oracle `O`; the boolean records whether the external algorithm was actually
invoked (the `X.size == 0` guard returns before constructing the clusterer). -/
def run_hdbscan (O : ClusterParams → SelMethod → List Int)
    (xSize : Nat) (params : ClusterParams) (m : SelMethod) : List Int × Bool :=
  if xSize = 0 then ([], false) else (O params m, true)

structure BestState where
  metrics : ClusterMetrics
  labels : List Int
  probs : Option (List ℚ)
  params : ClusterParams
  method : SelMethod
deriving Repr, DecidableEq

/-- The best-tracking condition of rebuild line 492: prefer strictly more
clusters, tie-break on strictly lower noise ratio. -/
def isBetter (m best : ClusterMetrics) : Bool :=
  decide (best.cluster_count < m.cluster_count)
  || (decide (m.cluster_count = best.cluster_count)
      && decide (m.noise_ratio < best.noise_ratio))

/-- The best-state update of rebuild lines 492-493: replace the tracked
best when there is none yet or the current iteration is strictly better. -/
def updateBest (best : Option BestState) (m : ClusterMetrics) (labels : List Int)
    (probs : Option (List ℚ)) (params : ClusterParams) (sel : SelMethod) : BestState :=
  match best with
  | none => ⟨m, labels, probs, params, sel⟩
  | some b => if isBetter m b.metrics then ⟨m, labels, probs, params, sel⟩ else b

/-- The adaptive multi-pass search loop of `rebuild` (lines 486-505),
parameterised by the label oracle `O` and probability oracle `OP`.
Besides the tracked best state it returns the list of evaluated metrics in
order and the number of times the external clustering algorithm was invoked
(both ghost observations of the loop's behaviour). -/
def searchLoop (O : ClusterParams → SelMethod → List Int)
    (OP : ClusterParams → SelMethod → Option (List ℚ))
    (xSize floor_ target_min : Nat) :
    Nat → ClusterParams → SelMethod → Option BestState → List ClusterMetrics →
      Nat → Option BestState × List ClusterMetrics × Nat
  | 0, _, _, best, trace, inv => (best, trace, inv)
  | fuel + 1, params, sel, best, trace, inv =>
    let r := run_hdbscan O xSize params sel
    let labels := r.1
    let probs := if xSize = 0 then none else OP params sel
    let m := evaluate labels
    let inv2 := inv + (if r.2 then 1 else 0)
    let trace2 := trace ++ [m]
    let best2 := updateBest best m labels probs params sel
    if target_min ≤ m.cluster_count ∧ m.noise_ratio ≤ 13/20 then
      (some best2, trace2, inv2)
    else if params.min_cluster_size ≤ floor_ then
      if sel = SelMethod.leaf then
        searchLoop O OP xSize floor_ target_min fuel params SelMethod.eom
          (some best2) trace2 inv2
      else (some best2, trace2, inv2)
    else
      let mcs2 := max floor_ (3 * params.min_cluster_size / 4)
      let ms2 := max 3 (7 * mcs2 / 20)
      searchLoop O OP xSize floor_ target_min fuel
        { min_cluster_size := mcs2, min_samples := ms2 } sel
        (some best2) trace2 inv2

/-! ### Cluster member assembly (`_build_cluster_members`, lines 251-275) -/

/-- The per-cluster working dict.  The Python dict starts with keys
`members`/`probs`/`texts`; `exemplar`, `mean_probability`, `label` and
`top_keywords` are added later, so they are `Option` fields (`none` =
key absent). -/
structure MemberData where
  members : List String
  probs : List ℚ
  texts : List String
  exemplar : Option String := none
  mean_probability : Option ℚ := none
  label : Option String := none
  top_keywords : Option (List String) := none
deriving Repr, DecidableEq

def emptyMD : MemberData := { members := [], probs := [], texts := [] }

/-- One row of the enumeration in `_build_cluster_members`:
`(ids[idx], texts[idx], labels[idx], probs[idx] when probs is not None)`. -/
structure Row where
  vid : String
  text : String
  lab : Int
  prob : Option ℚ
deriving Repr, DecidableEq

/-- `clusters.setdefault(label, {...})` followed by the three appends:
an existing key keeps its position and gets the element appended, a fresh
key is appended at the end of the (insertion-ordered) dict. -/
def addMember (acc : List (Int × MemberData)) (lab : Int) (vid text : String)
    (p : Option ℚ) : List (Int × MemberData) :=
  match acc with
  | [] => [(lab, { members := [vid], probs := p.toList, texts := [text] })]
  | (c, d) :: rest =>
    if c = lab then
      (c, { d with members := d.members ++ [vid],
                   probs := d.probs ++ p.toList,
                   texts := d.texts ++ [text] }) :: rest
    else (c, d) :: addMember rest lab vid text p

/-- The grouping loop: noise rows (`label == -1`) are skipped. -/
def buildMembersAux (acc : List (Int × MemberData)) : List Row → List (Int × MemberData)
  | [] => acc
  | r :: rs =>
    buildMembersAux (if r.lab = -1 then acc else addMember acc r.lab r.vid r.text r.prob) rs

/-- `np.argmax`: index of the first maximal element. -/
def argmaxAux : List ℚ → Nat → Nat → ℚ → Nat
  | [], _, bi, _ => bi
  | q :: qs, i, bi, bq =>
    if bq < q then argmaxAux qs (i + 1) i q else argmaxAux qs (i + 1) bi bq

def argmax : List ℚ → Nat
  | [] => 0
  | q :: qs => argmaxAux qs 1 0 q

/-- The exemplar-selection pass of `_build_cluster_members` (lines 264-274):
exemplar = member with the highest probability (first member when the probs
list is empty), `mean_probability` = arithmetic mean of the probs. -/
def exemplarize (cs : List (Int × MemberData)) : List (Int × MemberData) :=
  cs.map fun p =>
    let d := p.2
    if d.members ≠ [] then
      let bestIdx := if d.probs ≠ [] then argmax d.probs else 0
      (p.1, { d with exemplar := some (d.members.getD bestIdx "")
                     mean_probability :=
                       if d.probs ≠ [] then some (d.probs.sum / d.probs.length) else none })
    else (p.1, { d with exemplar := none, mean_probability := none })

/-- The rows visited by `for idx, label in enumerate(labels)` starting at
index `i`; `ids[idx]`/`texts[idx]`/`probs[idx]` is modelled by `getD`
(in every call site the four sequences are aligned). -/
def mkRowsAux (ids texts : List String) (probs : Option (List ℚ)) :
    Nat → List Int → List Row
  | _, [] => []
  | i, l :: ls =>
    { vid := ids.getD i "", text := texts.getD i "", lab := l
      prob := probs.map (fun ps => ps.getD i 0) } :: mkRowsAux ids texts probs (i + 1) ls

/-- `TopicClusteringService._build_cluster_members`. -/
def buildClusterMembers (ids texts : List String) (labels : List Int)
    (probs : Option (List ℚ)) : List (Int × MemberData) :=
  exemplarize (buildMembersAux [] (mkRowsAux ids texts probs 0 labels))

/-! ### Labeling (`label_clusters` / `_label_clusters_with_llm_batch`,
lines 277-397) -/

def placeholderLabel (cid : Int) : String := "cluster_" ++ toString cid

/-- Placeholder assignment `data['label'] = f"cluster_{cid}"`,
`data['top_keywords'] = []`. -/
def setPlaceholder (p : Int × MemberData) : Int × MemberData :=
  (p.1, { p.2 with label := some (placeholderLabel p.1), top_keywords := some [] })

/-- One parsed `ClusterLabel` object of the structured LLM response. -/
structure LabelObj where
  id : Int
  label : String
  keywords : List String
deriving Repr, DecidableEq

/-- The keyword normalisation of lines 377-387: strip, lowercase, drop
empties, deduplicate preserving first-seen order, cut at `maxKw`. -/
def dedupKeep (seen : List String) : List String → List String
  | [] => []
  | k :: ks => if k ∈ seen then dedupKeep seen ks else k :: dedupKeep (k :: seen) ks

def normalizeKeywords (maxKw : Nat) (kws : List String) : List String :=
  (dedupKeep [] ((kws.filter (fun k => k.trim ≠ "")).map (fun k => k.trim.toLower))).take maxKw

/-- `label_map = {c.id: c for c in parsed.clusters}` — a duplicate id keeps
the last object. -/
def lookupLast (parsed : List LabelObj) (cid : Int) : Option LabelObj :=
  (parsed.filter (fun c => c.id = cid)).getLast?

/-- One batch of the LLM loop (lines 311-390).  `llm batch = none` models a
request whose response is missing/unparseable (`parsed` falsy); `some parsed`
is the structured result. -/
def processBatch (llm : List (Int × MemberData) → Option (List LabelObj))
    (maxKw : Nat) (batch : List (Int × MemberData)) : List (Int × MemberData) :=
  match llm batch with
  | none => batch.map setPlaceholder
  | some parsed =>
    batch.map fun p =>
      match lookupLast parsed p.1 with
      | some cobj =>
        (p.1, { p.2 with
          label := some (((if cobj.label = "" then placeholderLabel p.1
                           else cobj.label).trim).take 60)
          top_keywords := some (normalizeKeywords maxKw cobj.keywords) })
      | none => setPlaceholder p

/-- `for start in range(0, len(cluster_items), batch_size)` with
`batch_size = 25`. -/
def toBatches25 : List (Int × MemberData) → List (List (Int × MemberData))
  | [] => []
  | x :: xs => ((x :: xs).take 25) :: toBatches25 (xs.drop 24)
termination_by l => l.length
decreasing_by
  simp only [List.length_drop, List.length_cons]
  omega

/-- `TopicClusteringService._label_clusters_with_llm_batch`.  `raises = true`
models an exception escaping the `try` block (import failure, client
construction, a raising request ...): the `except` handler then overwrites
EVERY cluster with the placeholder (lines 391-396). -/
def labelClustersWithLLMBatch (llm : List (Int × MemberData) → Option (List LabelObj))
    (raises : Bool) (maxKw : Nat)
    (clusters : List (Int × MemberData)) : List (Int × MemberData) :=
  if raises then clusters.map setPlaceholder
  else ((toBatches25 clusters).map (processBatch llm maxKw)).flatten

/-- `TopicClusteringService.label_clusters`.  `api_key` falsy (absent or
empty string) disables LLM labeling and yields placeholders. -/
def label_clusters (apiKey : Option String)
    (llm : List (Int × MemberData) → Option (List LabelObj)) (raises : Bool)
    (maxKw : Nat) (clusters : List (Int × MemberData)) : List (Int × MemberData) :=
  if clusters = [] then []
  else if apiKey.getD "" = "" then clusters.map setPlaceholder
  else labelClustersWithLLMBatch llm raises maxKw clusters

/-! ### Snapshot build (`build_snapshot`, lines 401-457) -/

structure ClusterEntry where
  id : Int
  label : String
  size : Nat
  percent : ℚ
  top_keywords : List String
  exemplar_video_id : Option String
  mean_probability : Option ℚ
  sample_video_ids : List String
deriving Repr, DecidableEq

/-- The persisted snapshot document.  `generated_at`, `embedding_model`,
`algo` and the `meta` block (wall clock / external validity / warnings) are
constants or unmodelled diagnostics; `percent` and `noise_ratio` keep their
exact rational values (the Python `round(_, 2)`/`round(_, 4)` is display
trimming of the same quantity). -/
structure Snapshot where
  min_cluster_size : Nat
  min_samples : Nat
  pca_components : Option Nat
  total_videos : Nat
  cluster_count : Nat
  noise_ratio : ℚ
  clusters : List ClusterEntry
  assignments : List (String × Int)
deriving Repr, DecidableEq

/-- `assignments[vid] = v` on an insertion-ordered dict: an existing key
keeps its position, value replaced; a fresh key is appended. -/
def dictInsert (acc : List (String × Int)) (k : String) (v : Int) :
    List (String × Int) :=
  match acc with
  | [] => [(k, v)]
  | (k2, v2) :: rest =>
    if k2 = k then (k2, v) :: rest else (k2, v2) :: dictInsert rest k v

/-- The assignment loop of `build_snapshot` (lines 402-411):
`assignments[vid] = int(labels[i]) if i < len(labels) else -1`. -/
def buildAssignmentsAux (acc : List (String × Int)) :
    List String → List Int → List (String × Int)
  | [], _ => acc
  | vid :: vids, [] => buildAssignmentsAux (dictInsert acc vid (-1)) vids []
  | vid :: vids, l :: ls => buildAssignmentsAux (dictInsert acc vid l) vids ls

/-- `TopicClusteringService.build_snapshot`, on the labeled cluster dict
(rebuild always passes `labeled_clusters`, so only that branch is taken). -/
def build_snapshot (ids : List String) (labels : List Int)
    (metrics : ClusterMetrics) (params : ClusterParams)
    (pca_components : Option Nat)
    (labeled_clusters : List (Int × MemberData)) : Snapshot :=
  let assignments := buildAssignmentsAux [] ids labels
  let total_videos := ids.length
  let cluster_entries := labeled_clusters.map fun p =>
    let d := p.2
    { id := p.1
      label := d.label.getD (placeholderLabel p.1)
      size := d.members.length
      percent := if total_videos ≠ 0 then
          (d.members.length : ℚ) / (total_videos : ℚ) * 100 else 0
      top_keywords := d.top_keywords.getD []
      exemplar_video_id := d.exemplar
      mean_probability := d.mean_probability
      sample_video_ids := d.members.take 3 : ClusterEntry }
  { min_cluster_size := params.min_cluster_size
    min_samples := params.min_samples
    pca_components := pca_components
    total_videos := total_videos
    cluster_count := metrics.cluster_count
    noise_ratio := metrics.noise_ratio
    clusters := cluster_entries
    assignments := assignments }

/-! ### Staleness check (`needs_rebuild`, lines 73-89) -/

/-- A JSON value, as far as the defensive parsing in `needs_rebuild`
observes it. -/
inductive JVal where
  | jnum (n : Int)
  | jbool (b : Bool)
  | jstr (s : String)
  | jlist (l : List JVal)
  | jnull
deriving Repr

/-- Python `int(x)`: succeeds on ints, bools and integer-literal strings
(with surrounding whitespace), raises on lists, floats-as-strings and null. -/
def pyInt : JVal → Except Unit Int
  | .jnum n => .ok n
  | .jbool b => .ok (if b then 1 else 0)
  | .jstr s => match s.trim.toInt? with
    | some n => .ok n
    | none => .error ()
  | .jlist _ => .error ()
  | .jnull => .error ()

/-- Lines 81-82: a non-empty list/tuple value is replaced by its first
element before the `int` conversion. -/
def coerceTotal : JVal → JVal
  | .jlist (x :: _) => x
  | v => v

/-- The loaded snapshot, as far as `needs_rebuild` reads it: only the
`total_videos` key matters (`none` = key absent). -/
structure SnapJson where
  total_videos : Option JVal
deriving Repr

/-- `TopicClusteringService.needs_rebuild` on the loaded JSON document.
`snap = none`: no snapshot could be loaded.  `count` is `vectordb.count()`
(`.error` = the call raised).  Any exception inside the `try` yields
`True`. -/
def needs_rebuildJ (snap : Option SnapJson) (count : Except Unit Int) : Bool :=
  match snap with
  | none => true
  | some s =>
    let st0 := s.total_videos.getD (.jnum (-1))
    let st1 := coerceTotal st0
    match count, pyInt st1 with
    | .ok c, .ok t => decide (t ≠ c)
    | _, _ => true

/-- `needs_rebuild` restricted to the states `rebuild` produces: a cached
well-formed snapshot (integer `total_videos`) and a successful count. -/
def needs_rebuild (cached : Option Snapshot) (count : Nat) : Bool :=
  needs_rebuildJ (cached.map fun s => { total_videos := some (.jnum s.total_videos) })
    (.ok count)

/-! ### Preprocessor (`preprocess_embeddings`, lines 161-184) -/

/-- Outcome of `preprocess_embeddings` on an N×D matrix.  The numeric
content (L2 normalisation, the PCA projection and its variance-threshold
truncation) is external library arithmetic; what the service decides — and
what the spec speaks about — is which branch runs and the reported
`pca_components`. -/
inductive PreprocOutcome where
  | empty
  | reduced (pca_components : Nat)
  | normalizedOnly (dim : Nat)
deriving Repr, DecidableEq

/-- `TopicClusteringService.preprocess_embeddings` branch structure.
`pcaOracle target` abstracts `PCA(n_components=target).fit_transform`
followed by the cumulative-variance cut (lines 174-180); `int(0.1 * n)` is
modelled as `n / 10`.  The PCA fit validates its arguments: with the
`auto` solver sklearn requires `n_components ≤ min(n_samples, n_features)`
(both the full and the randomized path), and a violating `target` makes
`fit_transform` raise `ValueError` — nothing in `preprocess_embeddings` or
`rebuild` catches it, so the call aborts (`.error`).  Since
`target ≤ dim` by construction, the violation happens exactly on matrices
with fewer than `target` rows (in the reduction branch: `0 < N < 10`). -/
def preprocess_embeddings (dimReduction : String) (n dim : Nat)
    (pcaOracle : Nat → Nat) : Except Unit PreprocOutcome :=
  if n * dim = 0 then .ok .empty
  else if dimReduction = "pca" ∧ 0 < n ∧ (3000 < n ∨ 384 < dim) then
    let target := min PCA_MAX_COMPONENTS (min dim (max 10 (n / 10)))
    if target ≤ min n dim then .ok (.reduced (pcaOracle target))
    else .error ()
  else .ok (.normalizedOnly dim)

/-- The `pca_components` diagnostic reported for each outcome
(0 for the empty matrix, the retained component count after reduction,
the full dimensionality otherwise). -/
def preprocInfo : PreprocOutcome → Nat
  | .empty => 0
  | .reduced k => k
  | .normalizedOnly d => d

/-! ### Query layer (`get_topics` lines 542-574, `get_cluster` lines 576-609) -/

/-- The dict returned by `get_topics`.  Keys that a code path does not put
into the dict are `none` (`generated_at` is a wall-clock string, not
modelled). -/
structure TopicsResult where
  clusters : List ClusterEntry
  count : Nat
  total : Option Nat
  total_videos : Option Nat
  noise_ratio : Option ℚ
  cluster_count : Option Nat
  error : Option String := none
deriving Repr, DecidableEq

/-- The four `clusters.sort(...)` variants of lines 553-560.  Python's sort
is stable; with the reflexive relations below `List.insertionSort` computes
the same stable result (for `reverse=True` the comparison is flipped while
ties keep the original order). -/
def sortClusters (sort : String) (clusters : List ClusterEntry) : List ClusterEntry :=
  if sort = "size_asc" then
    clusters.insertionSort (fun a b => a.size ≤ b.size)
  else if sort = "alpha" then
    clusters.insertionSort (fun a b => a.label.toLower ≤ b.label.toLower)
  else if sort = "alpha_desc" then
    clusters.insertionSort (fun a b => b.label.toLower ≤ a.label.toLower)
  else
    clusters.insertionSort (fun a b => b.size ≤ a.size)

/-- `TopicClusteringService.get_topics`, with the state effect made
explicit: `clusters.sort(...)` sorts the very list object held by the
cached snapshot, so the call returns the response dict AND the snapshot
state after the call.  The `include_noise` flag is a no-op in the source
(lines 547-552 compute nothing that is used).  `offset` only slices when
truthy (non-zero). -/
def get_topics (cached : Option Snapshot) (sort : String)
    (include_noise : Bool) (limit : Option Nat) (offset : Nat) :
    TopicsResult × Option Snapshot :=
  match cached with
  | none =>
    ({ clusters := [], count := 0, total := none, total_videos := some 0
       noise_ratio := none, cluster_count := none }, none)
  | some snap =>
    let sorted := sortClusters sort snap.clusters
    let afterOffset := if offset ≠ 0 then sorted.drop offset else sorted
    let sliced := match limit with
      | some l => afterOffset.take l
      | none => afterOffset
    ({ clusters := sliced
       count := sliced.length
       total := some sorted.length
       total_videos := some snap.total_videos
       noise_ratio := some snap.noise_ratio
       cluster_count := some snap.cluster_count },
     some { snap with clusters := sorted })

/-- Display metadata held by the vector store for one video id. -/
structure ItemMeta where
  title : Option String
  channel : Option String
  url : Option String
  published_at : Option String
  duration_seconds : Option Int
deriving Repr, DecidableEq

/-- One hydrated member row of the `get_cluster` response. -/
structure VideoEntry where
  id : String
  title : Option String
  channel : Option String
  url : Option String
  published_at : Option String
  duration_seconds : Option Int
  thumbnail : String
deriving Repr, DecidableEq

/-- The dict returned by `get_cluster`; absent keys are `none`
(the no-snapshot dict carries only `error`). -/
structure ClusterResult where
  error : Option String := none
  cluster : Option ClusterEntry := none
  videos : List VideoEntry := []
  count : Option Nat := none
  cluster_id : Option Int := none
deriving Repr, DecidableEq

/-- `TopicClusteringService.get_cluster`; `get_items` is the vector store
lookup (`none` = id not found, such rows are skipped). -/
def get_cluster (cached : Option Snapshot) (get_items : String → Option ItemMeta)
    (cluster_id : Int) : ClusterResult :=
  match cached with
  | none => { error := some "no snapshot" }
  | some snap =>
    let member_ids := (snap.assignments.filter (fun p => p.2 = cluster_id)).map (fun p => p.1)
    let videos := member_ids.filterMap fun vid =>
      match get_items vid with
      | none => none
      | some meta => some
        { id := vid, title := meta.title, channel := meta.channel
          url := meta.url, published_at := meta.published_at
          duration_seconds := meta.duration_seconds
          thumbnail := "https://img.youtube.com/vi/" ++ vid ++ "/hqdefault.jpg" : VideoEntry }
    let cluster_entry := snap.clusters.find? (fun c => c.id = cluster_id)
    { cluster := cluster_entry, videos := videos
      count := some videos.length, cluster_id := some cluster_id }

/-! ### Rebuild orchestrator (`rebuild`, lines 460-515) -/

/-- The environment a rebuild runs against: the cached/persisted snapshot,
the vector store contents, and the external capabilities as oracles. -/
structure RebuildEnv where
  cached : Option Snapshot
  count : Nat
  rows : List (String × String)
  oracle : ClusterParams → SelMethod → List Int
  probOracle : ClusterParams → SelMethod → Option (List ℚ)
  pcaOracle : Nat → Nat
  dimReduction : String
  dim : Nat
  apiKey : Option String
  llm : List (Int × MemberData) → Option (List LabelObj)
  llmRaises : Bool

/-- `TopicClusteringService.load_embeddings`: `count() == 0` short-circuits
to the empty result; otherwise the batched pull yields the store's
`(id, labeling-text)` pairs. -/
def load_embeddings (env : RebuildEnv) : List (String × String) :=
  if env.count = 0 then [] else env.rows

/-- The locals `ids` / `texts` of the pipeline body of `rebuild`. -/
def pipelineIds (env : RebuildEnv) : List String :=
  (load_embeddings env).map (fun p => p.1)

def pipelineTexts (env : RebuildEnv) : List String :=
  (load_embeddings env).map (fun p => p.2)

/-- The local `X_proc, pca_info = preprocess_embeddings(X)` (a raising
PCA fit yields `.error`, which aborts the pipeline). -/
def pipelinePre (env : RebuildEnv) : Except Unit PreprocOutcome :=
  preprocess_embeddings env.dimReduction (pipelineIds env).length env.dim env.pcaOracle

/-- `X_proc.size` of the preprocessed matrix handed to the search loop
(the `.error` arm is never consulted: the pipeline aborts before the
search when preprocessing raises). -/
def pipelineXSize (env : RebuildEnv) : Nat :=
  match pipelinePre env with
  | .ok .empty => 0
  | .ok (.reduced k) => (pipelineIds env).length * k
  | .ok (.normalizedOnly d) => (pipelineIds env).length * d
  | .error _ => 0

/-- The adaptive multi-pass search (lines 480-505) as invoked by `rebuild`:
`target_min = max(15, min(80, n // 120))`, `max_iters = 6`, initial params
from `derive_params`, starting with `leaf` selection and no best state. -/
def pipelineSearch (env : RebuildEnv) :
    Option BestState × List ClusterMetrics × Nat :=
  searchLoop env.oracle env.probOracle (pipelineXSize env) MIN_CLUSTER_SIZE_FLOOR
    (max 15 (min 80 ((pipelineIds env).length / 120))) 6
    (derive_params MIN_CLUSTER_SIZE_FLOOR MIN_CLUSTER_SIZE_MAX
      (pipelineIds env).length)
    SelMethod.leaf none [] 0

/-- The pipeline body of `rebuild` (lines 467-515): load, preprocess,
search, build members, label, build snapshot.  A raising PCA fit
propagates out of `rebuild` uncaught (the handler at lines 516-524
re-raises), modelled as `.error`.  On success it returns the snapshot, a
`true` flag (pipeline ran) and the number of clustering invocations.  The
`none` arm is unreachable (fuel 6 ≥ 1 always yields a best state) and
returns a junk empty snapshot. -/
def runPipeline (env : RebuildEnv) : Except Unit (Snapshot × Bool × Nat) :=
  match pipelinePre env with
  | .error e => .error e
  | .ok pre =>
    match (pipelineSearch env).1 with
    | none =>
      .ok (build_snapshot [] [] { cluster_count := 0, noise_ratio := 0 }
        (derive_params MIN_CLUSTER_SIZE_FLOOR MIN_CLUSTER_SIZE_MAX
          (pipelineIds env).length)
        (some (preprocInfo pre)) [], true, (pipelineSearch env).2.2)
    | some best =>
      .ok (build_snapshot (pipelineIds env) best.labels best.metrics best.params
        (some (preprocInfo pre))
        (label_clusters env.apiKey env.llm env.llmRaises LABEL_MAX_KEYWORDS
          (buildClusterMembers (pipelineIds env) (pipelineTexts env)
            best.labels best.probs)),
       true, (pipelineSearch env).2.2)

/-- `TopicClusteringService.rebuild`.  Returns the snapshot together with
two ghost observations: whether the pipeline ran (vs. the cached fast path
of lines 463-466) and how many times the clustering algorithm was invoked;
`.error` is an exception propagating to the caller. -/
def rebuild (env : RebuildEnv) (force : Bool) :
    Except Unit (Snapshot × Bool × Nat) :=
  match (if force then none
         else if needs_rebuild env.cached env.count then none else env.cached) with
  | some snap => .ok (snap, false, 0)
  | none => runPipeline env

/-! ### Specification predicates for the search loop ordering -/

/-- `b` is at least as good as every metric in `tr` under the driver's
ordering: any other evaluated iteration either has strictly fewer clusters,
or is tied on clusters with a noise ratio no lower than `b`'s. -/
def BeatsAll (b : ClusterMetrics) (tr : List ClusterMetrics) : Prop :=
  ∀ m ∈ tr, m.cluster_count < b.cluster_count ∨
    (m.cluster_count = b.cluster_count ∧ b.noise_ratio ≤ m.noise_ratio)

/-- `b` strictly beats `m`: strictly more clusters, or tied with strictly
lower noise ratio. -/
def StrictlyBeats (b m : ClusterMetrics) : Prop :=
  m.cluster_count < b.cluster_count ∨
    (m.cluster_count = b.cluster_count ∧ b.noise_ratio < m.noise_ratio)

/-- `b` occurs in the trace and strictly beats every iteration evaluated
before that occurrence: it is the earliest optimum. -/
def FirstOptimum (b : ClusterMetrics) (tr : List ClusterMetrics) : Prop :=
  ∃ i, i < tr.length ∧ tr.getD i { cluster_count := 0, noise_ratio := 0 } = b ∧
    ∀ m ∈ tr.take i, StrictlyBeats b m

/-- The search-loop invariant: an absent best means an empty trace; a
present best lies in the trace, beats every evaluated metric, is the
earliest optimum and its parameters respect the floor. -/
def LoopInv (floor_ : Nat) (best : Option BestState) (tr : List ClusterMetrics) : Prop :=
  match best with
  | none => tr = []
  | some b => b.metrics ∈ tr ∧ BeatsAll b.metrics tr ∧ FirstOptimum b.metrics tr ∧
      floor_ ≤ b.params.min_cluster_size

/-! ### Helper observers for the member-assembly proofs -/

def lookupMD (c : Int) : List (Int × MemberData) → Option MemberData
  | [] => none
  | (c2, d) :: rest => if c2 = c then some d else lookupMD c rest

/-- The member-list length recorded for cluster id `c` (0 when absent). -/
def sizeAt (c : Int) (acc : List (Int × MemberData)) : Nat :=
  ((lookupMD c acc).map (fun d => d.members.length)).getD 0

/-- Total number of members over all clusters of the dict. -/
def msum (acc : List (Int × MemberData)) : Nat :=
  (acc.map (fun p => p.2.members.length)).sum

def keysOf (acc : List (Int × MemberData)) : List Int :=
  acc.map (fun p => p.1)

/-! ### Concrete inputs used by the witness theorems -/

def wLLM : List (Int × MemberData) → Option (List LabelObj) := fun _ => none

def c7snap : Snapshot :=
  { min_cluster_size := 5, min_samples := 5, pca_components := some 2
    total_videos := 2, cluster_count := 1, noise_ratio := 0
    clusters := [], assignments := [("a", 0), ("b", 0)] }

def c7env : RebuildEnv :=
  { cached := some c7snap, count := 2, rows := [("a", "ta"), ("b", "tb")]
    oracle := fun _ _ => [0, 0], probOracle := fun _ _ => none
    pcaOracle := fun t => t, dimReduction := "pca", dim := 2
    apiKey := none, llm := wLLM, llmRaises := false }

def c8env : RebuildEnv :=
  { cached := none, count := 0, rows := []
    oracle := fun _ _ => [0, 0], probOracle := fun _ _ => none
    pcaOracle := fun t => t, dimReduction := "pca", dim := 2
    apiKey := none, llm := wLLM, llmRaises := false }

def c5md : MemberData :=
  { members := ["a"], probs := [], texts := ["ta"] }

def c5mdLabeled : MemberData :=
  { members := ["a"], probs := [], texts := ["ta"], label := some "cluster_0"
    top_keywords := some [] }

def c5env : RebuildEnv :=
  { cached := none, count := 2, rows := [("a", "ta"), ("b", "tb")]
    oracle := fun _ _ => [0, 0], probOracle := fun _ _ => none
    pcaOracle := fun t => t, dimReduction := "pca", dim := 1
    apiKey := none, llm := wLLM, llmRaises := false }

def emptySnapshot : Snapshot :=
  { min_cluster_size := 5, min_samples := 5, pca_components := some 0
    total_videos := 0, cluster_count := 0, noise_ratio := 0
    clusters := [], assignments := [] }

def c9e1 : ClusterEntry :=
  { id := 0, label := "a", size := 1, percent := 50, top_keywords := []
    exemplar_video_id := none, mean_probability := none, sample_video_ids := [] }

def c9e2 : ClusterEntry :=
  { id := 1, label := "b", size := 2, percent := 50, top_keywords := []
    exemplar_video_id := none, mean_probability := none, sample_video_ids := [] }

def c9snap : Snapshot :=
  { min_cluster_size := 5, min_samples := 2, pca_components := some 2
    total_videos := 3, cluster_count := 2, noise_ratio := 0
    clusters := [c9e1, c9e2]
    assignments := [("a", 0), ("b", 1), ("c", 1)] }

/-! ## Theorems -/

/-- C6, counterexample: with no snapshot ever built, `get_topics` does NOT
return a typed "no snapshot" error condition — it returns the ordinary
empty result dict `{'clusters': [], 'count': 0, 'total_videos': 0}` with no
error marker. -/
theorem C6_counterexample :
    (get_topics none "size_desc" false none 0).1.error ≠ some "no snapshot" ∧
    (get_topics none "size_desc" false none 0).1 =
      { clusters := [], count := 0, total := none, total_videos := some 0
        noise_ratio := none, cluster_count := none, error := none } := by
  exact ⟨by decide, rfl⟩

/-- C6, amended: in a state where no snapshot has ever been built,
`get_cluster` returns the typed error dict `{'error': 'no snapshot'}`
(no exception), while `get_topics` returns the ordinary empty result
`{'clusters': [], 'count': 0, 'total_videos': 0}` without an error marker
(also no exception). -/
theorem C6_no_snapshot_behaviour :
    (∀ sort inc limit offset, (get_topics none sort inc limit offset).1 =
      { clusters := [], count := 0, total := none, total_videos := some 0
        noise_ratio := none, cluster_count := none, error := none }) ∧
    (∀ items cid, get_cluster none items cid =
      { error := some "no snapshot", cluster := none, videos := []
        count := none, cluster_id := none }) :=
  ⟨fun _ _ _ _ => rfl, fun _ _ => rfl⟩

/-- C4, counterexample: with reduction enabled, a 3001×384 matrix
(N = 3001 > 3000 but D = 384, NOT exceeding 384) IS reduced — the PCA fit
succeeds there, `target = 50 ≤ min(3001, 384)` — refuting the claim that
reduction happens only when both thresholds are exceeded. -/
theorem C4_counterexample :
    preprocess_embeddings "pca" 3001 384 (fun t => t) = .ok (.reduced 50) ∧
    ¬ (3000 < 3001 ∧ 384 < 384) :=
  ⟨rfl, by decide⟩

/-- C4, amended: for a non-empty N×D matrix, the reduction branch is taken
exactly when it is enabled and N exceeds 3000 OR D exceeds 384 (the source
condition is a disjunction, not a conjunction).  When it is taken and the
derived component target respects the PCA precondition
`target ≤ min(N, D)`, principal-component reduction is applied; when the
precondition is violated (which in this branch means N < 10, e.g. a 1×385
matrix) the PCA fit raises and the error propagates, so no matrix is
returned at all.  Outside the branch only the L2-normalized matrix is
returned, with no reduction. -/
theorem C4_reduction_condition (red : String) (n dim : Nat) (O : Nat → Nat)
    (hn : 0 < n) (hd : 0 < dim) :
    ((∃ k, preprocess_embeddings red n dim O = .ok (.reduced k)) ↔
      (red = "pca" ∧ (3000 < n ∨ 384 < dim) ∧
        min PCA_MAX_COMPONENTS (min dim (max 10 (n / 10))) ≤ min n dim)) ∧
    ((preprocess_embeddings red n dim O = .error ()) ↔
      (red = "pca" ∧ (3000 < n ∨ 384 < dim) ∧
        ¬ min PCA_MAX_COMPONENTS (min dim (max 10 (n / 10))) ≤ min n dim)) ∧
    (¬ (red = "pca" ∧ (3000 < n ∨ 384 < dim)) →
      preprocess_embeddings red n dim O = .ok (.normalizedOnly dim)) := by
  have hnd : n * dim ≠ 0 := Nat.mul_ne_zero hn.ne' hd.ne'
  unfold preprocess_embeddings
  rw [if_neg hnd]
  by_cases hc : red = "pca" ∧ 0 < n ∧ (3000 < n ∨ 384 < dim)
  · rw [if_pos hc]
    by_cases ht : min PCA_MAX_COMPONENTS (min dim (max 10 (n / 10))) ≤ min n dim
    · rw [if_pos ht]
      refine ⟨⟨fun _ => ⟨hc.1, hc.2.2, ht⟩, fun _ => ⟨_, rfl⟩⟩,
        ⟨fun habs => absurd habs (by simp), fun h2 => absurd ht h2.2.2⟩,
        fun habs => absurd ⟨hc.1, hc.2.2⟩ habs⟩
    · rw [if_neg ht]
      refine ⟨⟨fun ⟨k, hk⟩ => absurd hk (by simp), fun h2 => absurd h2.2.2 ht⟩,
        ⟨fun _ => ⟨hc.1, hc.2.2, ht⟩, fun _ => rfl⟩,
        fun habs => absurd ⟨hc.1, hc.2.2⟩ habs⟩
  · rw [if_neg hc]
    refine ⟨⟨fun ⟨k, hk⟩ => absurd hk (by simp),
        fun h2 => absurd ⟨h2.1, hn, h2.2.1⟩ hc⟩,
      ⟨fun habs => absurd habs (by simp),
        fun h2 => absurd ⟨h2.1, hn, h2.2.1⟩ hc⟩,
      fun _ => rfl⟩

/-- C4 witness: the amended trichotomy evaluated at the 3001×384 matrix. -/
theorem C4_reduction_condition_witness :
    ((∃ k, preprocess_embeddings "pca" 3001 384 (fun t => t) = .ok (.reduced k)) ↔
      ("pca" = "pca" ∧ (3000 < 3001 ∨ 384 < 384) ∧
        min PCA_MAX_COMPONENTS (min 384 (max 10 (3001 / 10))) ≤ min 3001 384)) ∧
    ((preprocess_embeddings "pca" 3001 384 (fun t => t) = .error ()) ↔
      ("pca" = "pca" ∧ (3000 < 3001 ∨ 384 < 384) ∧
        ¬ min PCA_MAX_COMPONENTS (min 384 (max 10 (3001 / 10))) ≤ min 3001 384)) ∧
    (¬ ("pca" = "pca" ∧ (3000 < 3001 ∨ 384 < 384)) →
      preprocess_embeddings "pca" 3001 384 (fun t => t) = .ok (.normalizedOnly 384)) :=
  C4_reduction_condition "pca" 3001 384 (fun t => t) (by decide) (by decide)

/-- C10: `needs_rebuild` is total and fail-safe: it returns `True` (rather
than propagating an exception) when no snapshot can be loaded, when the
count call raises, when the stored `total_videos` is missing, and when it
is malformed (not convertible to an int). -/
theorem C10_needs_rebuild_total :
    (∀ c, needs_rebuildJ none c = true) ∧
    (∀ s, needs_rebuildJ (some s) (.error ()) = true) ∧
    (∀ (s : SnapJson) (c : Int), s.total_videos = none → 0 ≤ c →
      needs_rebuildJ (some s) (.ok c) = true) ∧
    (∀ (s : SnapJson) (c : Int) (v : JVal), s.total_videos = some v →
      pyInt (coerceTotal v) = .error () → needs_rebuildJ (some s) (.ok c) = true) := by
  refine ⟨fun _ => rfl, fun s => ?_, fun s c hv hc => ?_, fun s c v hv herr => ?_⟩
  · show needs_rebuildJ _ _ = true
    unfold needs_rebuildJ
    cases pyInt (coerceTotal (s.total_videos.getD (.jnum (-1)))) <;> rfl
  · obtain ⟨tv⟩ := s
    change tv = none at hv
    subst hv
    show decide ((-1 : Int) ≠ c) = true
    simp only [ne_eq, decide_eq_true_eq]
    omega
  · obtain ⟨tv⟩ := s
    change tv = some v at hv
    subst hv
    show (match (Except.ok c : Except Unit Int), pyInt (coerceTotal v) with
      | .ok c, .ok t => decide (t ≠ c)
      | _, _ => true) = true
    rw [herr]

/-- C10 witness: the four fail-safe cases at concrete states. -/
theorem C10_needs_rebuild_total_witness :
    needs_rebuildJ none (.ok 0) = true ∧
    needs_rebuildJ (some { total_videos := none }) (.error ()) = true ∧
    needs_rebuildJ (some { total_videos := none }) (.ok 0) = true ∧
    needs_rebuildJ (some { total_videos := some .jnull }) (.ok 0) = true :=
  ⟨C10_needs_rebuild_total.1 (.ok 0),
   C10_needs_rebuild_total.2.1 { total_videos := none },
   C10_needs_rebuild_total.2.2.1 { total_videos := none } 0 rfl (by decide),
   C10_needs_rebuild_total.2.2.2 { total_videos := some .jnull } 0
     .jnull rfl rfl⟩

/-- C7: for a state holding a snapshot, `needs_rebuild` is `True` exactly
when the snapshot's `total_videos` differs from the store's count, and
`rebuild(force=False)` on a non-stale cached snapshot returns it unchanged
without running the pipeline (and without invoking the clustering
algorithm). -/
theorem C7_staleness :
    (∀ (s : Snapshot) (c : Nat),
      needs_rebuild (some s) c = true ↔ s.total_videos ≠ c) ∧
    (∀ (env : RebuildEnv) (s : Snapshot), env.cached = some s →
      s.total_videos = env.count → rebuild env false = .ok (s, false, 0)) := by
  have hiff : ∀ (s : Snapshot) (c : Nat),
      needs_rebuild (some s) c = true ↔ s.total_videos ≠ c := by
    intro s c
    show decide ((s.total_videos : Int) ≠ (c : Int)) = true ↔ s.total_videos ≠ c
    simp
  refine ⟨hiff, fun env s hc he => ?_⟩
  have hfalse : needs_rebuild (some s) env.count = false := by
    cases hb : needs_rebuild (some s) env.count
    · rfl
    · exact absurd he ((hiff s env.count).mp hb)
  simp only [rebuild, hc, hfalse, Bool.false_eq_true, if_false]

/-- C7 witness. -/
theorem C7_staleness_witness :
    (needs_rebuild (some c7snap) 2 = true ↔ c7snap.total_videos ≠ 2) ∧
    rebuild c7env false = .ok (c7snap, false, 0) :=
  ⟨C7_staleness.1 c7snap 2, C7_staleness.2 c7env c7snap rfl rfl⟩

/-- C9, counterexample: `clusters.sort(...)` sorts the very list object
held by the cached snapshot, so a default (`size_desc`) `get_topics` call on
a snapshot whose clusters are stored in ascending-size order reorders the
stored snapshot: the state after the call differs from the state before. -/
theorem C9_counterexample :
    (get_topics (some c9snap) "size_desc" false none 0).2 ≠ some c9snap := by
  decide

/-- C9, amended: `get_topics` may permute the stored snapshot's clusters
list in place (it sorts the shared list object), but that is the whole
effect: the stored list after the call is exactly the sorted version of the
list before — a permutation, with no entries added, removed or modified —
and every other snapshot field is unchanged. -/
theorem C9_get_topics_frame (snap : Snapshot) (sort : String) (inc : Bool)
    (limit : Option Nat) (offset : Nat) :
    (get_topics (some snap) sort inc limit offset).2 =
      some { snap with clusters := sortClusters sort snap.clusters } ∧
    (sortClusters sort snap.clusters).Perm snap.clusters := by
  constructor
  · rfl
  · unfold sortClusters
    split_ifs <;> exact List.perm_insertionSort _ _

/-! ### Search-loop invariant lemmas (shared by the C2 and C3 theorems) -/

theorem strictlyBeats_of_isBetter_of_beats (m b p : ClusterMetrics)
    (h1 : isBetter m b = true)
    (h2 : p.cluster_count < b.cluster_count ∨
      (p.cluster_count = b.cluster_count ∧ b.noise_ratio ≤ p.noise_ratio)) :
    StrictlyBeats m p := by
  unfold isBetter at h1
  unfold StrictlyBeats
  simp only [Bool.or_eq_true, Bool.and_eq_true, decide_eq_true_eq] at h1
  rcases h1 with h1 | ⟨hcc, hnr⟩
  · rcases h2 with h2 | ⟨h2c, _⟩
    · exact Or.inl (lt_trans h2 h1)
    · exact Or.inl (h2c ▸ h1)
  · rcases h2 with h2 | ⟨h2c, h2n⟩
    · exact Or.inl (hcc ▸ h2)
    · exact Or.inr ⟨by omega, lt_of_lt_of_le hnr h2n⟩

theorem beats_of_not_isBetter (m b : ClusterMetrics) (h : isBetter m b = false) :
    m.cluster_count < b.cluster_count ∨
      (m.cluster_count = b.cluster_count ∧ b.noise_ratio ≤ m.noise_ratio) := by
  have h2 : ¬ (isBetter m b = true) := by simp [h]
  unfold isBetter at h2
  simp only [Bool.or_eq_true, Bool.and_eq_true, decide_eq_true_eq, not_or,
    not_and, not_lt] at h2
  obtain ⟨hle, hn⟩ := h2
  rcases lt_or_eq_of_le hle with hlt | heq
  · exact Or.inl hlt
  · exact Or.inr ⟨heq, hn heq⟩

theorem loopInv_step (floor_ : Nat) (best : Option BestState)
    (tr : List ClusterMetrics) (m : ClusterMetrics) (labels : List Int)
    (probs : Option (List ℚ)) (params : ClusterParams) (sel : SelMethod)
    (hp : floor_ ≤ params.min_cluster_size) (h : LoopInv floor_ best tr) :
    LoopInv floor_ (some (updateBest best m labels probs params sel)) (tr ++ [m]) := by
  unfold updateBest
  cases best with
  | none =>
    have htr : tr = [] := h
    subst htr
    refine ⟨by simp, ?_, ⟨0, by simp, rfl, by simp⟩, hp⟩
    intro p hmem
    rw [List.nil_append, List.mem_singleton] at hmem
    subst hmem
    exact Or.inr ⟨rfl, le_refl _⟩
  | some b =>
    obtain ⟨hmem, hball, hfirst, hfl⟩ := h
    show LoopInv floor_ (some (if isBetter m b.metrics = true then
      { metrics := m, labels := labels, probs := probs, params := params, method := sel }
      else b)) (tr ++ [m])
    cases hib : isBetter m b.metrics with
    | true =>
      rw [if_pos rfl]
      have hstrict : ∀ p ∈ tr, StrictlyBeats m p := fun p hp2 =>
        strictlyBeats_of_isBetter_of_beats m b.metrics p hib (hball p hp2)
      refine ⟨by simp, ?_, ?_, hp⟩
      · intro p hp2
        rcases List.mem_append.mp hp2 with hin | hin
        · rcases hstrict p hin with hs | ⟨he, hn⟩
          · exact Or.inl hs
          · exact Or.inr ⟨he, le_of_lt hn⟩
        · rw [List.mem_singleton] at hin
          subst hin
          exact Or.inr ⟨rfl, le_refl _⟩
      · refine ⟨tr.length, by simp, ?_, ?_⟩
        · rw [List.getD_append_right _ _ _ _ (le_refl _), Nat.sub_self]
          rfl
        · rw [List.take_left]
          exact hstrict
    | false =>
      rw [if_neg (by decide : ¬ false = true)]
      refine ⟨List.mem_append_left _ hmem, ?_, ?_, hfl⟩
      · intro p hp2
        rcases List.mem_append.mp hp2 with hin | hin
        · exact hball p hin
        · rw [List.mem_singleton] at hin
          subst hin
          exact beats_of_not_isBetter _ b.metrics hib
      · obtain ⟨i, hi, hgd, htk⟩ := hfirst
        refine ⟨i, by simp; omega, ?_, ?_⟩
        · rw [List.getD_append _ _ _ _ hi]
          exact hgd
        · rw [List.take_append_of_le_length (le_of_lt hi)]
          exact htk

theorem searchLoop_master (O : ClusterParams → SelMethod → List Int)
    (OP : ClusterParams → SelMethod → Option (List ℚ))
    (xSize floor_ target : Nat) :
    ∀ (fuel : Nat) (params : ClusterParams) (sel : SelMethod)
      (best : Option BestState) (tr : List ClusterMetrics) (inv : Nat),
      floor_ ≤ params.min_cluster_size → LoopInv floor_ best tr →
      LoopInv floor_ (searchLoop O OP xSize floor_ target fuel params sel best tr inv).1
          (searchLoop O OP xSize floor_ target fuel params sel best tr inv).2.1 ∧
      (searchLoop O OP xSize floor_ target fuel params sel best tr inv).2.1.length ≤
          tr.length + fuel ∧
      ((best.isSome ∨ 1 ≤ fuel) →
        (searchLoop O OP xSize floor_ target fuel params sel best tr inv).1.isSome) := by
  intro fuel
  induction fuel with
  | zero =>
    intro params sel best tr inv hp h
    refine ⟨h, by simp [searchLoop], fun hs => ?_⟩
    rcases hs with hs | hs
    · exact hs
    · omega
  | succ fuel ih =>
    intro params sel best tr inv hp h
    have hstep := loopInv_step floor_ best tr
      (evaluate (run_hdbscan O xSize params sel).1)
      (run_hdbscan O xSize params sel).1
      (if xSize = 0 then none else OP params sel) params sel hp h
    simp only [searchLoop]
    split
    · exact ⟨hstep, by simp only [List.length_append, List.length_singleton]; omega,
        fun _ => rfl⟩
    · split
      · split
        · have hrec := ih params SelMethod.eom
            (some (updateBest best
              (evaluate (run_hdbscan O xSize params sel).1)
              (run_hdbscan O xSize params sel).1
              (if xSize = 0 then none else OP params sel) params sel))
            (tr ++ [evaluate (run_hdbscan O xSize params sel).1])
            (inv + (if (run_hdbscan O xSize params sel).2 then 1 else 0))
            hp hstep
          refine ⟨hrec.1, ?_, fun _ => hrec.2.2 (Or.inl rfl)⟩
          have := hrec.2.1
          simp only [List.length_append, List.length_singleton] at this
          omega
        · exact ⟨hstep, by simp only [List.length_append, List.length_singleton]; omega,
            fun _ => rfl⟩
      · have hrec := ih
          { min_cluster_size := max floor_ (3 * params.min_cluster_size / 4)
            min_samples := max 3 (7 * (max floor_ (3 * params.min_cluster_size / 4)) / 20) }
          sel
          (some (updateBest best
            (evaluate (run_hdbscan O xSize params sel).1)
            (run_hdbscan O xSize params sel).1
            (if xSize = 0 then none else OP params sel) params sel))
          (tr ++ [evaluate (run_hdbscan O xSize params sel).1])
          (inv + (if (run_hdbscan O xSize params sel).2 then 1 else 0))
          (le_max_left _ _) hstep
        refine ⟨hrec.1, ?_, fun _ => hrec.2.2 (Or.inl rfl)⟩
        have := hrec.2.1
        simp only [List.length_append, List.length_singleton] at this
        omega

theorem derive_params_floor (floor_ cap n : Nat) :
    floor_ ≤ (derive_params floor_ cap n).min_cluster_size := by
  unfold derive_params
  split
  · exact le_refl _
  · exact le_max_left _ _

/-- C2: the search loop's returned state is a best-seen iteration: it
appears in the trace of evaluated metrics, every evaluated iteration either
has strictly fewer clusters or is tied on the maximal cluster count with a
noise ratio no lower than the winner's, and the winner is the earliest such
optimum (it strictly beats everything evaluated before it). -/
theorem C2_best_tracking (O : ClusterParams → SelMethod → List Int)
    (OP : ClusterParams → SelMethod → Option (List ℚ)) (xSize floor_ target : Nat)
    (base : ClusterParams) (hbase : floor_ ≤ base.min_cluster_size) :
    ∃ b, (searchLoop O OP xSize floor_ target 6 base SelMethod.leaf none [] 0).1 = some b ∧
      b.metrics ∈ (searchLoop O OP xSize floor_ target 6 base SelMethod.leaf none [] 0).2.1 ∧
      BeatsAll b.metrics (searchLoop O OP xSize floor_ target 6 base SelMethod.leaf none [] 0).2.1 ∧
      FirstOptimum b.metrics (searchLoop O OP xSize floor_ target 6 base SelMethod.leaf none [] 0).2.1 := by
  obtain ⟨hinv, _, hsome⟩ := searchLoop_master O OP xSize floor_ target 6 base
    SelMethod.leaf none [] 0 hbase rfl
  obtain ⟨b, hb⟩ := Option.isSome_iff_exists.mp (hsome (Or.inr (by omega)))
  rw [hb] at hinv
  exact ⟨b, hb, hinv.1, hinv.2.1, hinv.2.2.1⟩

/-- C2 witness: the tracking property at a concrete oracle. -/
theorem C2_best_tracking_witness :
    ∃ b, (searchLoop (fun _ _ => []) (fun _ _ => none) 0 5 15 6
        { min_cluster_size := 5, min_samples := 5 } SelMethod.leaf none [] 0).1 = some b ∧
      b.metrics ∈ (searchLoop (fun _ _ => []) (fun _ _ => none) 0 5 15 6
        { min_cluster_size := 5, min_samples := 5 } SelMethod.leaf none [] 0).2.1 ∧
      BeatsAll b.metrics (searchLoop (fun _ _ => []) (fun _ _ => none) 0 5 15 6
        { min_cluster_size := 5, min_samples := 5 } SelMethod.leaf none [] 0).2.1 ∧
      FirstOptimum b.metrics (searchLoop (fun _ _ => []) (fun _ _ => none) 0 5 15 6
        { min_cluster_size := 5, min_samples := 5 } SelMethod.leaf none [] 0).2.1 :=
  C2_best_tracking (fun _ _ => []) (fun _ _ => none) 0 5 15
    { min_cluster_size := 5, min_samples := 5 } (by decide)

/-- C3: for every input size N (and arbitrary oracles), the search loop as
started by `rebuild` performs at most 6 clustering evaluations and returns,
and the `min_cluster_size` of the winning parameters is at least the
configured floor. -/
theorem C3_bounded_search (O : ClusterParams → SelMethod → List Int)
    (OP : ClusterParams → SelMethod → Option (List ℚ)) (xSize n floor_ cap : Nat) :
    (searchLoop O OP xSize floor_ (max 15 (min 80 (n / 120))) 6
        (derive_params floor_ cap n) SelMethod.leaf none [] 0).2.1.length ≤ 6 ∧
    ∀ b, (searchLoop O OP xSize floor_ (max 15 (min 80 (n / 120))) 6
        (derive_params floor_ cap n) SelMethod.leaf none [] 0).1 = some b →
      floor_ ≤ b.params.min_cluster_size := by
  obtain ⟨hinv, hlen, _⟩ := searchLoop_master O OP xSize floor_
    (max 15 (min 80 (n / 120))) 6 (derive_params floor_ cap n)
    SelMethod.leaf none [] 0 (derive_params_floor floor_ cap n) rfl
  refine ⟨by simpa using hlen, fun b hb => ?_⟩
  rw [hb] at hinv
  exact hinv.2.2.2

/-- C3 witness: at N = 0 with a trivial oracle the loop evaluates twice
(≤ 6) and returns the floor as `min_cluster_size`. -/
theorem C3_bounded_search_witness :
    (searchLoop (fun _ _ => []) (fun _ _ => none) 0 5 (max 15 (min 80 (0 / 120))) 6
        (derive_params 5 150 0) SelMethod.leaf none [] 0).2.1.length ≤ 6 ∧
    5 ≤ (BestState.mk { cluster_count := 0, noise_ratio := 0 } [] none
        { min_cluster_size := 5, min_samples := 5 } SelMethod.leaf).params.min_cluster_size :=
  ⟨(C3_bounded_search (fun _ _ => []) (fun _ _ => none) 0 0 5 150).1,
   (C3_bounded_search (fun _ _ => []) (fun _ _ => none) 0 0 5 150).2
     (BestState.mk { cluster_count := 0, noise_ratio := 0 } [] none
        { min_cluster_size := 5, min_samples := 5 } SelMethod.leaf) (by decide)⟩

/-! ### Labeler fallback lemmas -/

theorem map_setPlaceholder_spec (cs : List (Int × MemberData)) :
    ∀ p ∈ cs.map setPlaceholder,
      p.2.label = some (placeholderLabel p.1) ∧ p.2.top_keywords = some [] := by
  intro p hp
  obtain ⟨q, _, rfl⟩ := List.mem_map.mp hp
  exact ⟨rfl, rfl⟩

/-- The pipeline aborts exactly when preprocessing raises; in particular
its success never depends on the labeler (whose failures are contained by
the placeholder fallback). -/
theorem runPipeline_isOk (env : RebuildEnv) :
    (runPipeline env).isOk = true ↔ ¬ pipelinePre env = .error () := by
  unfold runPipeline
  rcases hpre : pipelinePre env with e2 | pre
  · cases e2
    simp [Except.isOk, Except.toBool]
  · rcases hb : (pipelineSearch env).1 with _ | best <;>
      simp [Except.isOk, Except.toBool]

theorem label_clusters_placeholder (apiKey : Option String)
    (llm : List (Int × MemberData) → Option (List LabelObj)) (raises : Bool)
    (maxKw : Nat) (cs : List (Int × MemberData))
    (h : apiKey.getD "" = "" ∨ raises = true) :
    ∀ p ∈ label_clusters apiKey llm raises maxKw cs,
      p.2.label = some (placeholderLabel p.1) ∧ p.2.top_keywords = some [] := by
  intro p hp
  unfold label_clusters at hp
  by_cases hcs : cs = []
  · rw [if_pos hcs] at hp
    simp at hp
  · rw [if_neg hcs] at hp
    by_cases hak : apiKey.getD "" = ""
    · rw [if_pos hak] at hp
      exact map_setPlaceholder_spec cs p hp
    · rw [if_neg hak] at hp
      have hr : raises = true := h.resolve_left hak
      unfold labelClustersWithLLMBatch at hp
      rw [hr, if_pos rfl] at hp
      exact map_setPlaceholder_spec cs p hp

/-- C5: whenever labeling is disabled (falsy API key), the labeling call
raises, or a batch's response is unparseable, every affected cluster
receives the deterministic placeholder label `"cluster_<id>"` with an empty
keyword list; every snapshot a (forced) rebuild produces under a disabled
or failing labeler carries the placeholder label and empty keywords on
every cluster entry; and labeler failure never aborts the rebuild: if a
rebuild completes under any labeler configuration, it also completes with
the labeler disabled or failing (the whole labeling stage is inside the
fallback). -/
theorem C5_labeler_fallback :
    (∀ llm raises maxKw cs, ∀ p ∈ label_clusters none llm raises maxKw cs,
      p.2.label = some (placeholderLabel p.1) ∧ p.2.top_keywords = some []) ∧
    (∀ apiKey llm maxKw cs, ∀ p ∈ label_clusters apiKey llm true maxKw cs,
      p.2.label = some (placeholderLabel p.1) ∧ p.2.top_keywords = some []) ∧
    (∀ llm maxKw batch, llm batch = none → ∀ p ∈ processBatch llm maxKw batch,
      p.2.label = some (placeholderLabel p.1) ∧ p.2.top_keywords = some []) ∧
    (∀ (env : RebuildEnv) (out : Snapshot × Bool × Nat),
      env.apiKey.getD "" = "" ∨ env.llmRaises = true →
      rebuild env true = .ok out →
      ∀ e ∈ out.1.clusters, e.label = placeholderLabel e.id ∧ e.top_keywords = []) ∧
    (∀ (env : RebuildEnv) (ak : Option String)
      (llm2 : List (Int × MemberData) → Option (List LabelObj)) (r2 : Bool),
      (rebuild env true).isOk = true →
      (rebuild { env with apiKey := ak, llm := llm2, llmRaises := r2 } true).isOk = true) := by
  refine ⟨fun llm raises maxKw cs p hp =>
      label_clusters_placeholder none llm raises maxKw cs (Or.inl rfl) p hp,
    fun apiKey llm maxKw cs p hp =>
      label_clusters_placeholder apiKey llm true maxKw cs (Or.inr rfl) p hp,
    fun llm maxKw batch hnone p hp => ?_, fun env out henv hok e he => ?_,
    fun env ak llm2 r2 hok => ?_⟩
  · unfold processBatch at hp
    rw [hnone] at hp
    exact map_setPlaceholder_spec batch p hp
  · have hrw : rebuild env true = runPipeline env := rfl
    rw [hrw] at hok
    unfold runPipeline at hok
    rcases hpre : pipelinePre env with e2 | pre
    · rw [hpre] at hok
      exact absurd hok (by simp)
    · rw [hpre] at hok
      rcases hb : (pipelineSearch env).1 with _ | best
      · rw [hb] at hok
        injection hok with hok2
        rw [← hok2] at he
        simp [build_snapshot] at he
      · rw [hb] at hok
        injection hok with hok2
        rw [← hok2] at he
        unfold build_snapshot at he
        simp only at he
        obtain ⟨q, hq, rfl⟩ := List.mem_map.mp he
        obtain ⟨hl, hk⟩ := label_clusters_placeholder env.apiKey env.llm env.llmRaises
          LABEL_MAX_KEYWORDS _ henv q hq
        constructor
        · show q.2.label.getD (placeholderLabel q.1) = placeholderLabel q.1
          rw [hl]
          rfl
        · show q.2.top_keywords.getD [] = []
          rw [hk]
          rfl
  · have hrw1 : rebuild env true = runPipeline env := rfl
    have hrw2 : rebuild { env with apiKey := ak, llm := llm2, llmRaises := r2 } true =
        runPipeline { env with apiKey := ak, llm := llm2, llmRaises := r2 } := rfl
    have hpre2 : pipelinePre { env with apiKey := ak, llm := llm2, llmRaises := r2 } =
        pipelinePre env := rfl
    rw [hrw1] at hok
    rw [hrw2, runPipeline_isOk, hpre2]
    exact (runPipeline_isOk env).mp hok

/-- C5 witness: the fallback evaluated at a one-cluster dict, and at the
environment `c5env` (disabled labeler), whose forced rebuild yields one
cluster entry labeled `cluster_0` with no keywords. -/
theorem C5_labeler_fallback_witness :
    (((0, { emptyMD with label := some "cluster_0", top_keywords := some [] }) : Int × MemberData).2.label =
        some (placeholderLabel 0) ∧
      ((0, { emptyMD with label := some "cluster_0", top_keywords := some [] }) : Int × MemberData).2.top_keywords = some []) ∧
    (((0, c5mdLabeled) : Int × MemberData).2.label = some (placeholderLabel 0) ∧
      ((0, c5mdLabeled) : Int × MemberData).2.top_keywords = some []) := by
  constructor
  · exact C5_labeler_fallback.1 wLLM false 4 [(0, emptyMD)]
      (0, { emptyMD with label := some "cluster_0", top_keywords := some [] })
      (by decide)
  · exact C5_labeler_fallback.2.2.1 wLLM 4 [(0, c5md)] rfl (0, c5mdLabeled) (by decide)

/-- C8: an empty Embedding Source (count = 0) is not an error: a forced
rebuild short-circuits — the clustering algorithm is never invoked (0
invocations) — and produces a valid empty snapshot with `total_videos = 0`,
`cluster_count = 0`, no clusters and no assignments. -/
theorem C8_empty_rebuild (env : RebuildEnv) (h : env.count = 0) :
    rebuild env true = .ok (emptySnapshot, true, 0) := by
  have hrw : rebuild env true = runPipeline env := rfl
  rw [hrw]
  have hids : pipelineIds env = [] := by
    unfold pipelineIds load_embeddings
    rw [if_pos h]
    rfl
  have htexts : pipelineTexts env = [] := by
    unfold pipelineTexts load_embeddings
    rw [if_pos h]
    rfl
  have hpre : pipelinePre env = .ok .empty := by
    unfold pipelinePre preprocess_embeddings
    rw [hids]
    simp only [List.length_nil, Nat.zero_mul, if_true]
  have hx : pipelineXSize env = 0 := by
    unfold pipelineXSize
    rw [hpre]
  have hsearch : pipelineSearch env =
      (some ⟨{ cluster_count := 0, noise_ratio := 0 }, [], none,
        { min_cluster_size := 5, min_samples := 5 }, SelMethod.leaf⟩,
       [{ cluster_count := 0, noise_ratio := 0 },
        { cluster_count := 0, noise_ratio := 0 }], 0) := by
    unfold pipelineSearch
    rw [hx, hids]
    rfl
  unfold runPipeline
  rw [hpre, hsearch, hids, htexts]
  rfl

/-- C8 witness: the empty rebuild at the concrete environment `c8env`. -/
theorem C8_empty_rebuild_witness :
    rebuild c8env true = .ok (emptySnapshot, true, 0) :=
  C8_empty_rebuild c8env rfl

/-! ### Counting lemmas for the member assembly and assignments (claim C1) -/

theorem dictInsert_not_mem (acc : List (String × Int)) (k : String) (v : Int)
    (h : k ∉ acc.map (fun p => p.1)) : dictInsert acc k v = acc ++ [(k, v)] := by
  induction acc with
  | nil => rfl
  | cons hd tl ih =>
    obtain ⟨k2, v2⟩ := hd
    simp only [List.map_cons, List.mem_cons, not_or] at h
    show (if k2 = k then (k2, v) :: tl else (k2, v2) :: dictInsert tl k v) = _
    rw [if_neg (fun he => h.1 he.symm), ih h.2]
    rfl

theorem buildAssignmentsAux_zip :
    ∀ (ids : List String) (labels : List Int) (acc : List (String × Int)),
      ids.length = labels.length →
      (∀ v ∈ ids, v ∉ acc.map (fun p => p.1)) → ids.Nodup →
      buildAssignmentsAux acc ids labels = acc ++ ids.zip labels := by
  intro ids
  induction ids with
  | nil =>
    intro labels acc _ _ _
    show acc = acc ++ List.zip [] labels
    simp
  | cons vid vids ih =>
    intro labels acc hlen hdis hnodup
    cases labels with
    | nil => simp at hlen
    | cons l ls =>
      have hvid : vid ∉ acc.map (fun p => p.1) := hdis vid (List.mem_cons_self _ _)
      have hd2 : ∀ v ∈ vids, v ∉ (dictInsert acc vid l).map (fun p => p.1) := by
        intro v hv
        rw [dictInsert_not_mem acc vid l hvid]
        simp only [List.map_append, List.mem_append, not_or, List.map_cons,
          List.map_nil, List.mem_singleton]
        refine ⟨hdis v (List.mem_cons_of_mem _ hv), fun he => ?_⟩
        exact (List.nodup_cons.mp hnodup).1 (he ▸ hv)
      have hlen2 : vids.length = ls.length := by simpa using hlen
      show buildAssignmentsAux (dictInsert acc vid l) vids ls = _
      rw [ih ls (dictInsert acc vid l) hlen2 hd2 (List.Nodup.of_cons hnodup),
        dictInsert_not_mem acc vid l hvid]
      simp [List.zip_cons_cons]

theorem zip_filter_snd_length (ids : List String) (labels : List Int)
    (hlen : ids.length = labels.length) (c : Int) :
    ((ids.zip labels).filter (fun p => p.2 = c)).length =
      labels.countP (fun l => l = c) := by
  rw [← List.countP_eq_length_filter]
  have hmap : (ids.zip labels).map Prod.snd = labels :=
    List.map_snd_zip ids labels (le_of_eq hlen.symm)
  conv_rhs => rw [← hmap]
  rw [List.countP_map]
  rfl

theorem mkRowsAux_map_lab (ids texts : List String) (probs : Option (List ℚ)) :
    ∀ (labels : List Int) (i : Nat),
      (mkRowsAux ids texts probs i labels).map (fun r => r.lab) = labels := by
  intro labels
  induction labels with
  | nil => intro i; rfl
  | cons l ls ih =>
    intro i
    simp only [mkRowsAux, List.map_cons]
    rw [ih]

theorem mkRowsAux_countP (ids texts : List String) (probs : Option (List ℚ))
    (labels : List Int) (i : Nat) (p : Int → Bool) :
    (mkRowsAux ids texts probs i labels).countP (fun r => p r.lab) =
      labels.countP p := by
  conv_rhs => rw [← mkRowsAux_map_lab ids texts probs labels i]
  rw [List.countP_map]
  rfl

theorem sizeAt_addMember (acc : List (Int × MemberData)) (lab : Int)
    (vid text : String) (p : Option ℚ) (c : Int) :
    sizeAt c (addMember acc lab vid text p) =
      if lab = c then sizeAt c acc + 1 else sizeAt c acc := by
  induction acc with
  | nil =>
    by_cases h : lab = c
    · subst h
      simp [addMember, sizeAt, lookupMD]
    · simp [addMember, sizeAt, lookupMD, h]
  | cons hd tl ih =>
    obtain ⟨c2, d⟩ := hd
    show sizeAt c (if c2 = lab then _ else _) = _
    by_cases h2 : c2 = lab
    · subst h2
      rw [if_pos rfl]
      by_cases hc : c2 = c
      · subst hc
        simp [sizeAt, lookupMD, List.length_append]
      · simp [sizeAt, lookupMD, hc]
    · rw [if_neg h2]
      by_cases hc : c2 = c
      · subst hc
        have hlc : ¬ lab = c2 := fun he => h2 he.symm
        simp [sizeAt, lookupMD, hlc]
      · simp only [sizeAt, lookupMD, if_neg hc] at ih ⊢
        exact ih

theorem sizeAt_buildMembersAux :
    ∀ (rs : List Row) (acc : List (Int × MemberData)) (c : Int), c ≠ -1 →
      sizeAt c (buildMembersAux acc rs) =
        sizeAt c acc + rs.countP (fun r => r.lab = c) := by
  intro rs
  induction rs with
  | nil =>
    intro acc c _
    simp [buildMembersAux]
  | cons r rs ih =>
    intro acc c hc
    show sizeAt c (buildMembersAux
      (if r.lab = -1 then acc else addMember acc r.lab r.vid r.text r.prob) rs) = _
    by_cases hr : r.lab = -1
    · rw [if_pos hr, ih acc c hc]
      have hne : ¬ (r.lab = c) := fun he => hc (he ▸ hr)
      simp [List.countP_cons, hne]
    · rw [if_neg hr, ih _ c hc, sizeAt_addMember]
      by_cases hrc : r.lab = c
      · rw [if_pos hrc]
        simp [List.countP_cons, hrc]
        omega
      · rw [if_neg hrc]
        simp [List.countP_cons, hrc]

theorem msum_addMember (acc : List (Int × MemberData)) (lab : Int)
    (vid text : String) (p : Option ℚ) :
    msum (addMember acc lab vid text p) = msum acc + 1 := by
  induction acc with
  | nil => simp [addMember, msum]
  | cons hd tl ih =>
    obtain ⟨c2, d⟩ := hd
    show msum (if c2 = lab then _ else _) = _
    by_cases h : c2 = lab
    · rw [if_pos h]
      simp [msum, List.length_append]
      omega
    · rw [if_neg h]
      simp only [msum, List.map_cons, List.sum_cons] at ih ⊢
      omega

theorem msum_buildMembersAux :
    ∀ (rs : List Row) (acc : List (Int × MemberData)),
      msum (buildMembersAux acc rs) =
        msum acc + rs.countP (fun r => r.lab ≠ -1) := by
  intro rs
  induction rs with
  | nil =>
    intro acc
    simp [buildMembersAux]
  | cons r rs ih =>
    intro acc
    show msum (buildMembersAux
      (if r.lab = -1 then acc else addMember acc r.lab r.vid r.text r.prob) rs) = _
    by_cases hr : r.lab = -1
    · rw [if_pos hr, ih acc]
      simp [List.countP_cons, hr]
    · rw [if_neg hr, ih _, msum_addMember]
      simp [List.countP_cons, hr]
      omega

theorem keysOf_addMember (acc : List (Int × MemberData)) (lab : Int)
    (vid text : String) (p : Option ℚ) :
    keysOf (addMember acc lab vid text p) =
      if lab ∈ keysOf acc then keysOf acc else keysOf acc ++ [lab] := by
  induction acc with
  | nil => simp [addMember, keysOf]
  | cons hd tl ih =>
    obtain ⟨c2, d⟩ := hd
    show keysOf (if c2 = lab then _ else _) = _
    by_cases h : c2 = lab
    · subst h
      rw [if_pos rfl]
      simp [keysOf, List.mem_cons]
    · rw [if_neg h]
      have hlc : ¬ lab = c2 := fun he => h he.symm
      show c2 :: keysOf (addMember tl lab vid text p) = _
      rw [ih]
      by_cases h2 : lab ∈ keysOf tl
      · rw [if_pos h2,
          if_pos (show lab ∈ keysOf ((c2, d) :: tl) from List.mem_cons_of_mem _ h2)]
        rfl
      · rw [if_neg h2, if_neg (show lab ∉ keysOf ((c2, d) :: tl) from by
          intro hmem
          rcases List.mem_cons.mp hmem with he | he
          · exact hlc he
          · exact h2 he)]
        rfl

theorem buildMembersAux_keys :
    ∀ (rs : List Row) (acc : List (Int × MemberData)),
      (keysOf acc).Nodup → (∀ c ∈ keysOf acc, c ≠ -1) →
      (keysOf (buildMembersAux acc rs)).Nodup ∧
      (∀ c ∈ keysOf (buildMembersAux acc rs), c ≠ -1) := by
  intro rs
  induction rs with
  | nil =>
    intro acc hnd hne
    exact ⟨hnd, hne⟩
  | cons r rs ih =>
    intro acc hnd hne
    have hstep : buildMembersAux acc (r :: rs) = buildMembersAux
        (if r.lab = -1 then acc else addMember acc r.lab r.vid r.text r.prob) rs := rfl
    rw [hstep]
    by_cases hr : r.lab = -1
    · rw [if_pos hr]
      exact ih acc hnd hne
    · rw [if_neg hr]
      refine ih _ ?_ ?_
      · rw [keysOf_addMember]
        by_cases hm : r.lab ∈ keysOf acc
        · rw [if_pos hm]; exact hnd
        · rw [if_neg hm]
          simp [List.nodup_append, hnd, hm]
      · rw [keysOf_addMember]
        by_cases hm : r.lab ∈ keysOf acc
        · rw [if_pos hm]; exact hne
        · rw [if_neg hm]
          intro c hcm
          rcases List.mem_append.mp hcm with hin | hin
          · exact hne c hin
          · rw [List.mem_singleton] at hin
            exact hin ▸ hr

theorem lookupMD_of_mem (acc : List (Int × MemberData)) (c : Int) (d : MemberData)
    (hnd : (keysOf acc).Nodup) (h : (c, d) ∈ acc) : lookupMD c acc = some d := by
  induction acc with
  | nil => simp at h
  | cons hd tl ih =>
    obtain ⟨c2, d2⟩ := hd
    rcases List.mem_cons.mp h with he | hin
    · injection he with h1 h2
      show (if c2 = c then some d2 else lookupMD c tl) = some d
      rw [if_pos h1.symm, h2]
    · have hck : c ∈ keysOf tl := by
        exact List.mem_map_of_mem (fun p => p.1) hin
      have hne : ¬ (c2 = c) := by
        intro he2
        subst he2
        exact (List.nodup_cons.mp hnd).1 hck
      show (if c2 = c then some d2 else lookupMD c tl) = some d
      rw [if_neg hne]
      exact ih (List.Nodup.of_cons hnd) hin

theorem exemplarize_mem (cs : List (Int × MemberData)) (q : Int × MemberData)
    (h : q ∈ exemplarize cs) :
    ∃ d0, (q.1, d0) ∈ cs ∧ q.2.members = d0.members := by
  obtain ⟨p, hp, heq⟩ := List.mem_map.mp h
  refine ⟨p.2, ?_, ?_⟩
  · have h1 : q.1 = p.1 := by
      rw [← heq]
      by_cases hm : p.2.members = [] <;> simp [hm]
    rw [h1]
    simpa using hp
  · rw [← heq]
    by_cases hm : p.2.members = [] <;> simp [hm]

theorem msum_exemplarize (cs : List (Int × MemberData)) :
    msum (exemplarize cs) = msum cs := by
  unfold msum exemplarize
  rw [List.map_map]
  congr 1
  apply List.map_congr_left
  intro p _
  by_cases hm : p.2.members = [] <;> simp [hm]

theorem countP_ne_add_countP_eq (labels : List Int) :
    labels.countP (fun l => l ≠ -1) + labels.countP (fun l => l = -1) =
      labels.length := by
  induction labels with
  | nil => rfl
  | cons x xs ih =>
    simp only [List.countP_cons, List.length_cons, ne_eq] at ih ⊢
    by_cases h : x = -1 <;> simp [h] at ih ⊢ <;> omega

/-- C1: for a snapshot built from a labeling over N points (aligned ids and
labels, distinct ids), each cluster record's `size` equals the number of
assignment entries carrying that cluster id, and the sum of all cluster
sizes plus the number of points labeled -1 equals `total_videos`, which is
N. -/
theorem C1_sizes_partition (ids texts : List String) (labels : List Int)
    (probs : Option (List ℚ)) (metrics : ClusterMetrics) (params : ClusterParams)
    (pc : Option Nat) (hn : ids.Nodup) (hl : ids.length = labels.length) :
    (∀ e ∈ (build_snapshot ids labels metrics params pc
        (buildClusterMembers ids texts labels probs)).clusters,
      e.size = ((build_snapshot ids labels metrics params pc
        (buildClusterMembers ids texts labels probs)).assignments.filter
          (fun p => p.2 = e.id)).length) ∧
    ((build_snapshot ids labels metrics params pc
        (buildClusterMembers ids texts labels probs)).clusters.map
          (fun e => e.size)).sum +
      ((build_snapshot ids labels metrics params pc
        (buildClusterMembers ids texts labels probs)).assignments.filter
          (fun p => p.2 = -1)).length =
      (build_snapshot ids labels metrics params pc
        (buildClusterMembers ids texts labels probs)).total_videos ∧
    (build_snapshot ids labels metrics params pc
        (buildClusterMembers ids texts labels probs)).total_videos = ids.length := by
  have hassign : (build_snapshot ids labels metrics params pc
      (buildClusterMembers ids texts labels probs)).assignments = ids.zip labels := by
    show buildAssignmentsAux [] ids labels = ids.zip labels
    simpa using buildAssignmentsAux_zip ids labels [] hl (by simp) hn
  have hkeys := buildMembersAux_keys (mkRowsAux ids texts probs 0 labels) []
    (by simp [keysOf]) (by simp [keysOf])
  refine ⟨?_, ?_, rfl⟩
  · intro e he
    obtain ⟨q, hq, rfl⟩ := List.mem_map.mp he
    obtain ⟨d0, hd0, hdm⟩ := exemplarize_mem _ q hq
    have hkmem : q.1 ∈ keysOf (buildMembersAux [] (mkRowsAux ids texts probs 0 labels)) :=
      List.mem_map_of_mem (fun p => p.1) hd0
    have hne : q.1 ≠ -1 := hkeys.2 q.1 hkmem
    have hlook : lookupMD q.1 (buildMembersAux [] (mkRowsAux ids texts probs 0 labels)) =
        some d0 := lookupMD_of_mem _ _ _ hkeys.1 hd0
    have h2 := sizeAt_buildMembersAux (mkRowsAux ids texts probs 0 labels) [] q.1 hne
    have h1 : sizeAt q.1 (buildMembersAux [] (mkRowsAux ids texts probs 0 labels)) =
        d0.members.length := by
      unfold sizeAt
      rw [hlook]
      rfl
    rw [h1, mkRowsAux_countP ids texts probs labels 0 (fun l => l = q.1)] at h2
    have hsize : d0.members.length = labels.countP (fun l => l = q.1) := by
      rw [h2]
      show sizeAt q.1 [] + _ = _
      simp [sizeAt, lookupMD]
    show q.2.members.length = ((build_snapshot ids labels metrics params pc
      (buildClusterMembers ids texts labels probs)).assignments.filter
        (fun p => p.2 = q.1)).length
    rw [hassign, zip_filter_snd_length ids labels hl q.1, hdm, hsize]
  · have hsum : ((build_snapshot ids labels metrics params pc
        (buildClusterMembers ids texts labels probs)).clusters.map
          (fun e => e.size)).sum =
        msum (buildClusterMembers ids texts labels probs) := by
      show (((buildClusterMembers ids texts labels probs).map (fun p =>
        ({ id := p.1, label := p.2.label.getD (placeholderLabel p.1)
           size := p.2.members.length
           percent := if ids.length ≠ 0 then
             (p.2.members.length : ℚ) / (ids.length : ℚ) * 100 else 0
           top_keywords := p.2.top_keywords.getD []
           exemplar_video_id := p.2.exemplar
           mean_probability := p.2.mean_probability
           sample_video_ids := p.2.members.take 3 } : ClusterEntry))).map
          (fun e => e.size)).sum =
        msum (buildClusterMembers ids texts labels probs)
      rw [List.map_map]
      rfl
    have hm1 : msum (buildClusterMembers ids texts labels probs) =
        labels.countP (fun l => l ≠ -1) := by
      unfold buildClusterMembers
      rw [msum_exemplarize, msum_buildMembersAux,
        mkRowsAux_countP ids texts probs labels 0 (fun l => l ≠ -1)]
      show msum [] + _ = _
      simp [msum]
    rw [hsum, hm1, hassign, zip_filter_snd_length ids labels hl (-1)]
    show labels.countP (fun l => l ≠ -1) + labels.countP (fun l => l = -1) = ids.length
    rw [countP_ne_add_countP_eq, hl]

/-- C1 witness: the invariant at a concrete 4-point labeling (two clusters
and one noise point). -/
theorem C1_sizes_partition_witness :
    (∀ e ∈ (build_snapshot ["a", "b", "c", "d"] [0, 0, 1, -1]
        { cluster_count := 2, noise_ratio := 1/4 }
        { min_cluster_size := 5, min_samples := 2 } (some 2)
        (buildClusterMembers ["a", "b", "c", "d"] ["ta", "tb", "tc", "td"]
          [0, 0, 1, -1] none)).clusters,
      e.size = ((build_snapshot ["a", "b", "c", "d"] [0, 0, 1, -1]
        { cluster_count := 2, noise_ratio := 1/4 }
        { min_cluster_size := 5, min_samples := 2 } (some 2)
        (buildClusterMembers ["a", "b", "c", "d"] ["ta", "tb", "tc", "td"]
          [0, 0, 1, -1] none)).assignments.filter
          (fun p => p.2 = e.id)).length) ∧
    ((build_snapshot ["a", "b", "c", "d"] [0, 0, 1, -1]
        { cluster_count := 2, noise_ratio := 1/4 }
        { min_cluster_size := 5, min_samples := 2 } (some 2)
        (buildClusterMembers ["a", "b", "c", "d"] ["ta", "tb", "tc", "td"]
          [0, 0, 1, -1] none)).clusters.map (fun e => e.size)).sum +
      ((build_snapshot ["a", "b", "c", "d"] [0, 0, 1, -1]
        { cluster_count := 2, noise_ratio := 1/4 }
        { min_cluster_size := 5, min_samples := 2 } (some 2)
        (buildClusterMembers ["a", "b", "c", "d"] ["ta", "tb", "tc", "td"]
          [0, 0, 1, -1] none)).assignments.filter
          (fun p => p.2 = -1)).length =
      (build_snapshot ["a", "b", "c", "d"] [0, 0, 1, -1]
        { cluster_count := 2, noise_ratio := 1/4 }
        { min_cluster_size := 5, min_samples := 2 } (some 2)
        (buildClusterMembers ["a", "b", "c", "d"] ["ta", "tb", "tc", "td"]
          [0, 0, 1, -1] none)).total_videos ∧
    (build_snapshot ["a", "b", "c", "d"] [0, 0, 1, -1]
        { cluster_count := 2, noise_ratio := 1/4 }
        { min_cluster_size := 5, min_samples := 2 } (some 2)
        (buildClusterMembers ["a", "b", "c", "d"] ["ta", "tb", "tc", "td"]
          [0, 0, 1, -1] none)).total_videos = ["a", "b", "c", "d"].length :=
  C1_sizes_partition ["a", "b", "c", "d"] ["ta", "tb", "tc", "td"] [0, 0, 1, -1]
    none { cluster_count := 2, noise_ratio := 1/4 }
    { min_cluster_size := 5, min_samples := 2 } (some 2)
    (by decide) (by decide)

end TopicClustering
